import Mathlib

/-!
Verification development for the Gattrose-NG host-side controller
(`flipper_bw16_deauther/gattrose_ng.c`).

The shallow embedding below translates the protocol engine of the C source:
the C-string helpers (`atoi`, the destructive `token_next` scanner, `strstr`),
the inventory data model (`Network`, `Client`, `BleDevice`), the binary and
legacy message decoders, the byte framer of `uart_rx_thread`, the firmware
detection sequence, the deauth command path and the network sort pass.
C strings are modelled as `List Char`; C `int` as `Int`; the fixed-size
collections as Lean lists guarded by the same capacity checks the C performs.
-/

namespace Gattrose

/-- C `isspace` for the ASCII locale, as used by `atoi`. -/
def isSpaceC (c : Char) : Bool :=
  c = ' ' || c = '\t' || c = '\n' || c.toNat = 11 || c.toNat = 12 || c = '\r'

/-- Numeric value of a leading run of decimal digits (zero when there is none),
the digit-accumulation loop inside C `atoi`. -/
def digitsVal (s : List Char) : Nat :=
  (s.takeWhile (fun c => c.isDigit)).foldl (fun a c => a * 10 + (c.toNat - 48)) 0

/-- C `atoi`: skip whitespace, optional sign, then leading digits (0 if none). -/
def atoi (s : List Char) : Int :=
  let s1 := s.dropWhile isSpaceC
  match s1 with
  | '-' :: r => -(digitsVal r : Int)
  | '+' :: r => (digitsVal r : Int)
  | r => (digitsVal r : Int)

/-- The token sequence produced by repeated `token_next(ts, d)` calls on a
buffer (the in-place replacement for `strtok`): each call returns the run up
to the next delimiter and consumes the delimiter; it returns no token once
the cursor stands at the end of the string.  An empty buffer yields no
tokens; a trailing delimiter yields no trailing empty token. -/
def cTokensAux (d : Char) : List Char → List Char → List (List Char)
  | [], acc => [acc.reverse]
  | c :: rest, acc =>
    if c = d then
      acc.reverse :: (match rest with
        | [] => []
        | r => cTokensAux d r [])
    else
      cTokensAux d rest (c :: acc)

/-- All tokens `token_next` would deliver from a buffer with delimiter `d`. -/
def cTokens (s : List Char) (d : Char) : List (List Char) :=
  match s with
  | [] => []
  | _ => cTokensAux d s []

/-- C `strstr`: the first suffix of `hay` that starts with `pat`, if any. -/
def cStrstr (hay pat : List Char) : Option (List Char) :=
  hay.tails.find? (fun t => pat.isPrefixOf t)

/-- `strstr(hay, pat) != NULL`. -/
def hasSub (hay pat : List Char) : Bool :=
  (cStrstr hay pat).isSome

-- Protocol framing bytes (STX/ETX binary protocol) and the field separator.
def PROTO_STX : Char := Char.ofNat 0x02
def PROTO_ETX : Char := Char.ofNat 0x03
def PROTO_SEP : Char := Char.ofNat 0x1D

-- Collection limits from the C header block.
def MAX_NETWORKS : Nat := 64
def MAX_CLIENTS : Nat := 128
def MAX_CLIENTS_PER_AP : Nat := 16
def MAX_BLE_DEVICES : Nat := 32

/-- `Network` struct: one observed access point. `client_indices` models the
fixed `int client_indices[MAX_CLIENTS_PER_AP]` array (length 16). -/
structure Network where
  id : Int := 0
  ssid : List Char := []
  bssid : List Char := []
  channel : Int := 0
  rssi : Int := 0
  security : Int := 0
  is_5ghz : Bool := false
  deauth_active : Bool := false
  client_count : Int := 0
  client_indices : List Int := List.replicate MAX_CLIENTS_PER_AP 0
  security_str : List Char := []
  has_pmf : Bool := false
  hidden : Bool := false
deriving Repr, DecidableEq, Inhabited

/-- `Client` struct: one observed station with its weak back-reference. -/
structure Client where
  mac : List Char := []
  rssi : Int := 0
  ap_index : Int := 0
deriving Repr, DecidableEq, Inhabited

/-- `BleDevice` struct. -/
structure BleDevice where
  address : List Char := []
  name : List Char := []
  rssi : Int := 0
deriving Repr, DecidableEq, Inhabited

/-- The closed firmware profile set (`FirmwareType` enum). -/
inductive FirmwareType where
  | unknown
  | gattrose
  | evilBW16
  | pingequa
  | marauder
  | generic
deriving Repr, DecidableEq, Inhabited

/-- `FirmwareCapabilities` bitset. -/
structure FirmwareCapabilities where
  wifi_scan : Bool := false
  wifi_scan_5ghz : Bool := false
  client_detection : Bool := false
  targeted_deauth : Bool := false
  broadcast_deauth : Bool := false
  beacon_spam : Bool := false
  evil_twin : Bool := false
  ble_scan : Bool := false
  ble_spam : Bool := false
  channel_hop : Bool := false
  monitor_mode : Bool := false
  eapol_capture : Bool := false
deriving Repr, DecidableEq, Inhabited

/-- The `firmware_caps[]` table: default capabilities per firmware type. -/
def firmware_caps : FirmwareType → FirmwareCapabilities
  | .unknown =>
    { wifi_scan := true, broadcast_deauth := true }
  | .gattrose =>
    { wifi_scan := true, wifi_scan_5ghz := true, client_detection := true,
      targeted_deauth := true, broadcast_deauth := true, beacon_spam := true,
      evil_twin := true, ble_scan := true, ble_spam := true,
      channel_hop := true, monitor_mode := true, eapol_capture := true }
  | .evilBW16 =>
    { wifi_scan := true, wifi_scan_5ghz := true, broadcast_deauth := true,
      beacon_spam := true, evil_twin := true, channel_hop := true,
      eapol_capture := true }
  | .pingequa =>
    { wifi_scan := true, broadcast_deauth := true }
  | .marauder =>
    { wifi_scan := true, broadcast_deauth := true, beacon_spam := true,
      ble_scan := true, ble_spam := true }
  | .generic =>
    { wifi_scan := true }

/-- The protocol-relevant slice of the global `App` state. GUI views,
notification sequences and audit logging are external collaborators and are
not modelled; everything the decoders, framer, detector, sorter and deauth
path read or write is present. -/
structure AppState where
  networks : List Network := []
  clients : List Client := []
  ble_devices : List BleDevice := []
  credentials : List Char := []
  selected_network : Int := 0
  monitor_active : Bool := false
  deauth_reason : Int := 0
  custom_mac : List Char := []
  scan_finished : Bool := false
  scanning : Bool := false
  connected : Bool := false
  firmware_type : FirmwareType := .unknown
  caps : FirmwareCapabilities := {}
  firmware_version : List Char := []
  firmware_response : List Char := []
  detection_done : Bool := false
  got_pong : Bool := false
  got_info : Bool := false
  got_help : Bool := false
  device_channel : Int := 0
  device_deauth_count : Int := 0
  device_beacon_active : Bool := false
  device_ap_active : Bool := false
  device_ble_count : Int := 0
deriving Repr, DecidableEq, Inhabited

/-- Replace every `PROTO_SEP` byte with a pipe, the normalization every
binary decoder performs before tokenizing. -/
def normSep (s : List Char) : List Char :=
  s.map (fun c => if c = PROTO_SEP then '|' else c)

/-- Replace every colon with a pipe, the normalization the legacy
`AP:`/`CLIENT:`/`STA:` line decoders perform before tokenizing. -/
def normColon (s : List Char) : List Char :=
  s.map (fun c => if c = ':' then '|' else c)

/-- The pure field-extraction part of `parse_network_message`: given the
128-byte local buffer (separator already normalized), either fail at one of
the five required tokens — exactly where the C returns without incrementing
`network_count` — or build the new `Network`.  The struct is zeroed and its
`client_indices` all set to `-1` before parsing. -/
def parseNetworkFields (buffer : List Char) : Option Network :=
  let ts := cTokens buffer '|'
  do
  let t0 ← ts[0]?
  let t1 ← ts[1]?
  let t2 ← ts[2]?
  let t3 ← ts[3]?
  let t4 ← ts[4]?
  pure { id := atoi t0
         ssid := t1.take 32
         bssid := t2.take 17
         channel := atoi t3
         rssi := atoi t4
         is_5ghz := match ts[5]? with
           | some t => atoi t = 5
           | none => false
         client_count := match ts[6]? with
           | some t => atoi t
           | none => 0
         security_str := match ts[7]? with
           | some t => t.take 15
           | none => ['?', '?', '?']
         has_pmf := match ts[8]? with
           | some t => atoi t = 1
           | none => false
         hidden := match ts[9]? with
           | some t => atoi t = 1
           | none => false
         client_indices := List.replicate MAX_CLIENTS_PER_AP (-1) }

/-- `parse_network_message`: reject when the collection is full, copy the
body into a 128-byte buffer (truncating), normalize the separator, parse,
and append the new network only when all required tokens are present. -/
def parse_network_message (s : AppState) (data : List Char) : AppState :=
  if s.networks.length ≥ MAX_NETWORKS then s
  else
    let buffer := normSep (data.take 127)
    match parseNetworkFields buffer with
    | some net => { s with networks := s.networks ++ [net] }
    | none => s

/-- The tokens the binary client decoder works from: the body copied into a
64-byte buffer (truncating) with the separator normalized. -/
def clientTokens (data : List Char) : List (List Char) :=
  cTokens (normSep (data.take 63)) '|'

/-- `parse_client_message`: dedup by MAC, validate the AP index, append the
client, and link it into the owning network's index list at the recomputed
occupancy (the scan stops at the first `-1` slot), raising the stored
`client_count` only when the recomputed occupancy exceeds it. -/
def parse_client_message (s : AppState) (data : List Char) : AppState :=
  if s.clients.length ≥ MAX_CLIENTS then s
  else
    let ts := clientTokens data
    match ts[0]? with
    | none => s
    | some t0 =>
      match ts[1]? with
      | none => s
      | some client_mac =>
        let ap_idx := atoi t0
        let rssi := match ts[2]? with
          | some t => atoi t
          | none => -80
        if s.clients.any (fun cl => cl.mac = client_mac) then s
        else if ap_idx < 0 ∨ ap_idx ≥ (s.networks.length : Int) then s
        else
          let i := ap_idx.toNat
          let client : Client :=
            { mac := client_mac.take 17, rssi := rssi, ap_index := ap_idx }
          let net := s.networks.getD i default
          let actual_count := (net.client_indices.takeWhile (fun x => x ≥ 0)).length
          let net' :=
            if actual_count < MAX_CLIENTS_PER_AP then
              { net with
                client_indices :=
                  net.client_indices.set actual_count (s.clients.length : Int)
                client_count :=
                  if (actual_count : Int) + 1 > net.client_count then
                    (actual_count : Int) + 1
                  else net.client_count }
            else net
          { s with
            networks := s.networks.set i net'
            clients := s.clients ++ [client] }

/-- `parse_ble_message`: address, optional name (placeholder when absent),
signal; plain append under the capacity check. -/
def parse_ble_message (s : AppState) (data : List Char) : AppState :=
  if s.ble_devices.length ≥ MAX_BLE_DEVICES then s
  else
    let ts := cTokens (normSep (data.take 127)) '|'
    match ts[0]? with
    | none => s
    | some t0 =>
      let dev : BleDevice :=
        { address := t0.take 17
          name := match ts[1]? with
            | some t => t.take 63
            | none => ['U', 'n', 'k', 'n', 'o', 'w', 'n']
          rssi := match ts[2]? with
            | some t => atoi t
            | none => -80 }
      { s with ble_devices := s.ble_devices ++ [dev] }

/-- The shared credential-append step: both `parse_credential_message` and
the legacy `EV:` branch of `process_rx_line` append `line ++ '\n'` to the
512-byte `credentials` buffer only when `strlen(line) < space`, where
`space = sizeof(credentials) - current - 2` is computed in `size_t`
arithmetic (wrapping below zero, as the C does). -/
def credSpace (cur : Nat) : Nat :=
  if cur ≤ 510 then 510 - cur else 2 ^ 64 - (cur - 510)

/-- The append itself: the whole line plus a newline, or nothing. -/
def credAppend (creds line : List Char) : List Char :=
  if line.length < credSpace creds.length then creds ++ line ++ ['\n'] else creds

/-- `parse_credential_message`: body copied into a 256-byte buffer
(truncating), separator normalized, then appended to the credential log. -/
def parse_credential_message (s : AppState) (data : List Char) : AppState :=
  { s with credentials := credAppend s.credentials (normSep (data.take 255)) }

/-- Version extraction of the `'i'` info response: `strstr(data, "V:")`, then
the span up to the next `'|'`, copied only when it fits the 32-byte field. -/
def infoVersion (data old : List Char) : List Char :=
  match cStrstr data ['V', ':'] with
  | none => old
  | some p =>
    match p.findIdx? (fun c => c = '|') with
    | none => old
    | some e =>
      let len := e - 2
      if len < 31 then (p.drop 2).take len else old

/-- `atoi(strstr(data, pat) + pat.length)` when the pattern occurs, else the
old value — the `CH:`/`D:`/`B:`/`W:`/`BLE:` field reads of the info decoder. -/
def infoField (data pat : List Char) (old : Int) : Int :=
  match cStrstr data pat with
  | none => old
  | some p => atoi (p.drop pat.length)

/-- `process_rx_message`: the binary-protocol dispatch switch on the tag
byte, after STX/ETX framing is stripped.  Console logging, LED notification
sequences and `FURI_LOG` calls are external side effects and not modelled. -/
def process_rx_message (s : AppState) (msg : List Char) : AppState :=
  match msg with
  | [] => s
  | resp_type :: data =>
    if resp_type = 'r' then
      -- Boot/ready message or LED response, disambiguated by "LED" prefix.
      if (['L', 'E', 'D'] : List Char).isPrefixOf data then s
      else
        let s := { s with
          firmware_type := .gattrose
          firmware_response := data.take 127
          detection_done := true }
        match cStrstr data [':'] with
        | some ver => { s with firmware_version := (ver.drop 1).take 31 }
        | none => s
    else if resp_type = 's' then
      if (['D', 'O', 'N', 'E', ':'] : List Char).isPrefixOf data then
        { s with scan_finished := true }
      else if data = ['S', 'C', 'A', 'N', 'N', 'I', 'N', 'G'] then
        { s with scanning := true }
      else s
    else if resp_type = 'n' then
      parse_network_message s data
    else if resp_type = 'c' then
      parse_client_message s data
    else if resp_type = 'l' then
      if (['S', 'C', 'A', 'N', '_', 'D', 'O', 'N', 'E', ':'] : List Char).isPrefixOf data then s
      else if data = ['B', 'L', 'E', '_', 'S', 'C', 'A', 'N', 'N', 'I', 'N', 'G'] then s
      else if data = ['B', 'L', 'E', '_', 'S', 'P', 'A', 'M', '_', 'O', 'N'] then s
      else if data = ['B', 'L', 'E', '_', 'S', 'T', 'O', 'P'] then s
      else parse_ble_message s data
    else if resp_type = 'C' then
      parse_credential_message s data
    else if resp_type = 'i' then
      let s :=
        match data with
        | [] => s
        | c :: _ =>
          if c.isDigit ∧ data.length < 5 then s   -- bare count, log only
          else
            { s with
              firmware_response := data.take 127
              firmware_version := infoVersion data s.firmware_version
              device_channel := infoField data ['C', 'H', ':'] s.device_channel
              device_deauth_count := infoField data ['D', ':'] s.device_deauth_count
              device_beacon_active :=
                match cStrstr data ['B', ':'] with
                | some p => atoi (p.drop 2) = 1
                | none => s.device_beacon_active
              device_ap_active :=
                match cStrstr data ['W', ':'] with
                | some p => atoi (p.drop 2) = 1
                | none => s.device_ap_active
              device_ble_count := infoField data ['B', 'L', 'E', ':'] s.device_ble_count }
      { s with got_info := true }
    else if resp_type = 'e' then s
    else if resp_type = 'd' then s       -- deauth status: notification only
    else if resp_type = 'w' then s       -- AP status: notification only
    else if resp_type = 'b' then s       -- beacon status: notification only
    else if resp_type = 'm' then
      if hasSub data ['O', 'N'] ∨ hasSub data ['M', 'O', 'N', 'I', 'T', 'O', 'R', '_', 'O', 'N'] then
        { s with monitor_active := true }
      else if hasSub data ['O', 'F', 'F'] ∨ hasSub data ['M', 'O', 'N', 'I', 'T', 'O', 'R', '_', 'O', 'F', 'F'] then
        { s with monitor_active := false }
      else s
    else if resp_type = 'x' then
      { s with
        monitor_active := false
        networks := s.networks.map (fun n => { n with deauth_active := false }) }
    else if resp_type = 'p' then s
    else if resp_type = 'a' then s
    else if resp_type = 'k' then s
    else s

/-- The pure field-extraction part of the legacy `AP:` branch of
`process_rx_line`: the line copied into a 128-byte buffer, every colon
replaced by a pipe (which also splits a colon-formatted BSSID), then the
"AP" token discarded and seven positional fields read; `is_5ghz` is derived
from the channel. -/
def parseLegacyApFields (line : List Char) : Option Network :=
  let buffer := normColon (line.take 127)
  let ts := cTokens buffer '|'
  do
  let _ ← ts[0]?          -- "AP"
  let t1 ← ts[1]?
  let t2 ← ts[2]?
  let t3 ← ts[3]?
  let t4 ← ts[4]?
  let t5 ← ts[5]?
  let t6 ← ts[6]?
  let ch := atoi t4
  pure { id := atoi t1
         ssid := t2.take 32
         bssid := t3.take 17
         channel := ch
         security := atoi t5
         rssi := atoi t6
         client_count := match ts[7]? with
           | some t => atoi t
           | none => 0
         is_5ghz := ch ≥ 36
         client_indices := List.replicate MAX_CLIENTS_PER_AP (-1) }

/-- The (ap_id, mac, rssi) triple the legacy `CLIENT:`/`STA:` branch
extracts: tokens after colon-normalization of a 64-byte buffer, with an
optional "NEW" token shifting the positions by one. -/
def legacyClientFields (line : List Char) : Option (Int × List Char × Int) :=
  let ts := cTokens (normColon (line.take 63)) '|'
  do
  let _ ← ts[0]?          -- "CLIENT" or "STA"
  let t1 ← ts[1]?
  let (tid, macPos) :=
    if t1 = ['N', 'E', 'W'] then ((ts[2]?), 3) else (some t1, 2)
  let tid ← tid
  let mac ← ts[macPos]?
  let rssi := match ts[macPos + 1]? with
    | some t => atoi t
    | none => -80
  pure (atoi tid, mac, rssi)

/-- `process_rx_line`: the legacy newline-terminated dispatch chain.
Branches that only log or drive notifications leave the state unchanged. -/
def process_rx_line (s : AppState) (line : List Char) : AppState :=
  if line.length < 2 then s
  else if (['A', 'P', ':'] : List Char).isPrefixOf line then
    if s.networks.length ≥ MAX_NETWORKS then s
    else
      match parseLegacyApFields line with
      | some net => { s with networks := s.networks ++ [net] }
      | none => s
  else if (['C', 'L', 'I', 'E', 'N', 'T', ':'] : List Char).isPrefixOf line
      ∨ (['S', 'T', 'A', ':'] : List Char).isPrefixOf line then
    if s.clients.length ≥ MAX_CLIENTS then s
    else
      match legacyClientFields line with
      | none => s
      | some (ap_id, client_mac, rssi) =>
        -- Find the AP by its peripheral-assigned id.
        match s.networks.findIdx? (fun n => n.id = ap_id) with
        | none => s
        | some ap_index =>
          if s.clients.any (fun cl => cl.mac = client_mac) then s
          else
            let client : Client :=
              { mac := client_mac.take 17, rssi := rssi,
                ap_index := (ap_index : Int) }
            let net := s.networks.getD ap_index default
            let net' :=
              if net.client_count < (MAX_CLIENTS_PER_AP : Int) then
                { net with
                  client_indices :=
                    net.client_indices.set net.client_count.toNat
                      (s.clients.length : Int)
                  client_count := net.client_count + 1 }
              else net
            { s with
              networks := s.networks.set ap_index net'
              clients := s.clients ++ [client] }
  else if (['S', 'C', 'A', 'N', ':', 'O', 'K'] : List Char).isPrefixOf line then
    { s with scan_finished := true }
  else if (['E', 'V', ':'] : List Char).isPrefixOf line then
    { s with credentials := credAppend s.credentials (line.drop 3) }
  else if (['E', 'R', 'R', 'O', 'R', ':'] : List Char).isPrefixOf line then s
  else if (['D', 'E', 'A', 'U', 'T', 'H', ':'] : List Char).isPrefixOf line then s
  else if (['B', 'E', 'A', 'C', 'O', 'N', ':'] : List Char).isPrefixOf line then s
  else if (['B', 'L', 'E', ':', '|'] : List Char).isPrefixOf line then s
  else if (['S', 'C', 'A', 'N', ':'] : List Char).isPrefixOf line then s
  else if line = ['P', 'O', 'N', 'G'] then
    { s with got_pong := true }
  else if (['G', 'A', 'T', 'T', 'R', 'O', 'S', 'E', '-', 'B', 'W', '1', '6', ':'] : List Char).isPrefixOf line then
    { s with
      firmware_type := .gattrose
      firmware_response := line.take 127
      detection_done := true }
  else if (['I', 'N', 'F', 'O', ':'] : List Char).isPrefixOf line then
    let s := { s with got_info := true }
    let s :=
      if hasSub line ['G', 'a', 't', 't', 'r', 'o', 's', 'e'] then
        let s := { s with firmware_type := .gattrose }
        match cStrstr line ['v'] with
        | some ver => { s with firmware_version := ver.take 31 }
        | none => s
      else if hasSub line ['E', 'v', 'i', 'l'] ∨ hasSub line ['B', 'W', '1', '6'] then
        { s with firmware_type := .evilBW16 }
      else s
    { s with firmware_response := line.take 127 }
  else if (['H', 'E', 'L', 'P', ':'] : List Char).isPrefixOf line then
    let s := { s with got_help := true }
    if hasSub line ['B', 'L', 'E', 'S', 'C', 'A', 'N'] ∨ hasSub line ['C', 'L', 'I', 'E', 'N', 'T', 'S'] then
      { s with firmware_type := .gattrose }
    else s
  else if hasSub line ['M', 'a', 'r', 'a', 'u', 'd', 'e', 'r'] ∨ hasSub line ['E', 'S', 'P', '3', '2'] then
    { s with
      firmware_type := .marauder
      firmware_response := line.take 127
      detection_done := true }
  else if line = ['O', 'K'] ∧ ¬ s.detection_done then
    if s.firmware_type = .unknown then { s with firmware_type := .generic } else s
  else if (['A', 'T', '+'] : List Char).isPrefixOf line ∨ (['+'] : List Char).isPrefixOf line then
    { s with firmware_type := .generic }
  else s

/-- The framer state of `uart_rx_thread`: the STX/ETX mode flag, the
accumulation buffer `rx_line` (capacity `sizeof(rx_line) - 1 = 255` payload
bytes), and the application state the decoders mutate. -/
structure RxState where
  in_message : Bool := false
  buf : List Char := []
  app : AppState := {}
deriving Repr, DecidableEq, Inhabited

/-- Capacity of the `rx_line` buffer available for payload bytes. -/
def RX_LINE_CAP : Nat := 255

/-- One byte through the framer of `uart_rx_thread`: STX resets the buffer
and enters frame mode; ETX inside a frame dispatches the accumulated bytes
to `process_rx_message` and leaves frame mode; other in-frame bytes are
appended while space remains and silently dropped otherwise; outside a
frame, printable bytes and tab accumulate and a newline (optional preceding
carriage return stripped) dispatches the line to `process_rx_line`. -/
def rx_step (st : RxState) (data : Char) : RxState :=
  if data = PROTO_STX then
    { st with in_message := true, buf := [] }
  else if data = PROTO_ETX ∧ st.in_message then
    { in_message := false, buf := [],
      app := process_rx_message st.app st.buf }
  else if st.in_message then
    if st.buf.length < RX_LINE_CAP then { st with buf := st.buf ++ [data] }
    else st
  else
    if data = '\n' then
      if st.buf.length > 0 then
        let line :=
          if st.buf.getLast? = some '\r' then st.buf.dropLast else st.buf
        { st with buf := [], app := process_rx_line st.app line }
      else st
    else if data.toNat ≥ 0x20 ∨ data = '\t' then
      if st.buf.length < RX_LINE_CAP then { st with buf := st.buf ++ [data] }
      else st
    else st

/-- Feed a byte sequence through the framer. -/
def processBytes (st : RxState) (bytes : List Char) : RxState :=
  bytes.foldl rx_step st

/-- Attach the capability set of the resolved profile — the
`detection_complete:` epilogue of `detect_firmware` (the enum bound check
always passes for a value of the closed enum). -/
def detectionComplete (st : RxState) : RxState :=
  { st with app := { st.app with caps := firmware_caps st.app.firmware_type } }

/-- `detect_firmware`: the multi-phase probe sequence.  Each `furi_delay_ms`
window is modelled by the byte sequence the background receive thread drains
during it (`boot` for the initial boot wait, `p1`…`p5` for the five probe
phases); the probe commands themselves go to the transport driver and do not
affect host state. -/
def detect_firmware (st : RxState)
    (boot p1 p2 p3 p4 p5 : List Char) : RxState :=
  if ¬ st.app.connected then st
  else
    let st := { st with app := { st.app with
      firmware_type := .unknown
      firmware_version := []
      firmware_response := []
      detection_done := false
      got_pong := false
      got_info := false
      got_help := false } }
    let st := processBytes st boot
    if st.app.detection_done ∧ st.app.firmware_type = .gattrose then
      detectionComplete st
    else
      let st := processBytes st p1               -- after sending "i"
      if st.app.detection_done ∨ st.app.got_info then
        detectionComplete
          (if st.app.firmware_type = .unknown ∧ st.app.got_info then
            { st with app := { st.app with firmware_type := .gattrose } }
          else st)
      else
        let st := processBytes st p2             -- after sending "INFO"
        if st.app.detection_done then detectionComplete st
        else
          let st := processBytes st p3           -- after sending "PING"
          let st :=
            if st.app.got_pong then
              { st with app := { st.app with firmware_type := .evilBW16 } }
            else st
          let st :=
            if st.app.firmware_type = .unknown then processBytes st p4
            else st                              -- after sending "HELP"
          let st :=
            if st.app.firmware_type = .unknown then processBytes st p5
            else st                              -- after sending "AT"
          detectionComplete st

/-- Decimal rendering of a C `int`, as `snprintf("%d")` produces it. -/
def intChars (i : Int) : List Char :=
  if i < 0 then '-' :: Nat.toDigits 10 i.natAbs else Nat.toDigits 10 i.natAbs

/-- The three-step legacy attack configuration sequence
(`send_attack_config`): APMAC, REASON, PORTAL.  The portal number is part of
UI state not modelled, rendered here as the fixed prefix only. -/
def send_attack_config (s : AppState) : List (List Char) :=
  [['A', 'P', 'M', 'A', 'C', ' '] ++ s.custom_mac,
   ['R', 'E', 'A', 'S', 'O', 'N', ' '] ++ intChars s.deauth_reason,
   ['P', 'O', 'R', 'T', 'A', 'L', ' ']]

/-- The modern deauth-by-id command: `d<id>` with the reason appended as
`-<reason>` only when it differs from the default (2). -/
def deauthCmd (id reason : Int) : List Char :=
  if reason ≠ 2 then 'd' :: intChars id ++ '-' :: intChars reason
  else 'd' :: intChars id

/-- `do_deauth`: toggles the selected network's deauth; encodes and sends
the dialect-appropriate commands (returned as the second component) and
flips the network's `deauth_active` flag.  The LED commands `r3` and
`r0,255,0` accompany the modern dialect. -/
def do_deauth (s : AppState) : AppState × List (List Char) :=
  let idx := s.selected_network
  if ¬ s.connected ∨ idx < 0 ∨ idx ≥ (s.networks.length : Int) then (s, [])
  else
    let i := idx.toNat
    let net := s.networks.getD i default
    if net.deauth_active then
      -- Stop deauth.
      let cmds :=
        if s.firmware_type = .gattrose then
          [['d', 's'], ['r', '0', ',', '2', '5', '5', ',', '0']]
        else
          [['S', 'T', 'O', 'P', ' '] ++ intChars net.id]
      ({ s with networks := s.networks.set i { net with deauth_active := false } },
       cmds)
    else
      -- Start deauth.
      let cmds :=
        if s.firmware_type = .gattrose then
          [['r', '3'], deauthCmd net.id s.deauth_reason]
        else
          send_attack_config s ++ [['D', 'E', 'A', 'U', 'T', 'H', ' '] ++ intChars net.id]
      ({ s with networks := s.networks.set i { net with deauth_active := true } },
       cmds)

/-- `network_should_swap`: true when the adjacent pair (a, b) must be
exchanged — a network with clients stays before one without; within the
same situation the comparison falls through to signal strength. -/
def network_should_swap (a b : Network) : Bool :=
  if a.client_count > 0 ∧ b.client_count = 0 then false
  else if a.client_count = 0 ∧ b.client_count > 0 then true
  else a.rssi < b.rssi

section BubbleSort

variable {α : Type} (f : α → α → Bool)

/-- One sweep of the inner loop of `sort_networks`'s bubble sort, with a
budget of `k` adjacent compare-and-swap steps starting at the left end:
`arr[j]` and `arr[j+1]` are exchanged when `f` (the swap predicate) fires. -/
def bpassN : Nat → List α → List α
  | _, [] => []
  | 0, l => l
  | _ + 1, [a] => [a]
  | k + 1, a :: b :: t =>
    if f a b then b :: bpassN k (a :: t) else a :: bpassN k (b :: t)

/-- The outer loop: with `n` elements the C performs sweeps with budgets
`n-1, n-2, …, 1` (`for i … for j < n-i-1`). -/
def bubbleAux : Nat → List α → List α
  | 0, l => l
  | k + 1, l => bubbleAux k (bpassN f (k + 1) l)

/-- The complete bubble sort of `sort_networks`. -/
def bubbleSort (l : List α) : List α :=
  bubbleAux f (l.length - 1) l

end BubbleSort

/-- The repass of `sort_networks` that recomputes one client's back-reference
after the reorder: scan every network in order, and inside each network the
first `client_count` slots of its index list; each hit overwrites the stored
index, so the last network containing the client wins and a client found
nowhere keeps its stale index. -/
def relinkAp (nets : List Network) (c : Nat) (old : Int) : Int :=
  (List.range nets.length).foldl
    (fun acc n =>
      let net := nets.getD n default
      if (net.client_indices.take net.client_count.toNat).contains (c : Int) then
        (n : Int)
      else acc)
    old

/-- `sort_networks`: bubble sort the network collection with
`network_should_swap`, then recompute every client's `ap_index` by the
scanning repass. -/
def sort_networks (s : AppState) : AppState :=
  let nets := bubbleSort network_should_swap s.networks
  { s with
    networks := nets
    clients := s.clients.enum.map
      (fun p => { p.2 with ap_index := relinkAp nets p.1 p.2.ap_index }) }

/-- A claim-shaped count check: the number of valid (non-negative) entries
in a network's client-index list. -/
def countValidEntries (net : Network) : Nat :=
  (net.client_indices.filter (fun x => x ≥ 0)).length

/-- The empty application state (the zero-initialized `App`). -/
def emptyApp : AppState := {}

/-- The legacy scenario line from the spec. -/
def c3Line : List Char :=
  ['A', 'P', ':', '1', ':', 'T', 'e', 's', 't', 'N', 'e', 't', ':',
   '1', '1', ':', '2', '2', ':', '3', '3', ':', '4', '4', ':', '5', '5', ':', '6', '6',
   ':', '6', ':', '1', '0', '4', '9', '6', '0', '0', ':', '-', '5', '5']

/-- The body of the binary scenario frame from the spec. -/
def c4Body : List Char :=
  ['3', '|', 'M', 'y', 'A', 'P', '|',
   'A', 'A', ':', 'B', 'B', ':', 'C', 'C', ':', 'D', 'D', ':', 'E', 'E', ':', 'F', 'F',
   '|', '6', '|', '-', '4', '2', '|', '2', '|', '0', '|',
   'W', 'P', 'A', '2', '-', 'A', 'E', 'S', '|', '0', '|', '0']

/-- The network the scenario expects. -/
def c4Expected : Network :=
  { id := 3
    ssid := ['M', 'y', 'A', 'P']
    bssid := ['A', 'A', ':', 'B', 'B', ':', 'C', 'C', ':', 'D', 'D', ':', 'E', 'E', ':', 'F', 'F']
    channel := 6
    rssi := -42
    is_5ghz := false
    client_count := 0
    security_str := ['W', 'P', 'A', '2', '-', 'A', 'E', 'S']
    has_pmf := false
    hidden := false
    client_indices := List.replicate MAX_CLIENTS_PER_AP (-1) }

/-- The framer/application state at connection time, before detection. -/
def detectInit : RxState := { app := { connected := true } }

/-- A binary network message whose wire-supplied client count is 7. -/
def c2Body : List Char :=
  ['1', '|', 'N', '|', 'B', '|', '6', '|', '-', '5', '0', '|', '2', '|', '7']

/-- Set the deauth flag of network `i` in place, as the deauth toggle does. -/
def setDeauthFlag (l : List Network) (i : Nat) (b : Bool) : List Network :=
  l.set i { l.getD i default with deauth_active := b }

/-- The claim-shaped network order: a network with clients never follows
one without, and inside one client-presence category the stronger signal
comes first. -/
def netOrdered (a b : Network) : Prop :=
  (a.client_count > 0 ∨ b.client_count ≤ 0) ∧
  ((a.client_count > 0 ↔ b.client_count > 0) → b.rssi ≤ a.rssi)

/-- An inventory state with one network holding no client links and one
client whose stored back-reference claims network 0. -/
def c1CxState : AppState :=
  { emptyApp with
    networks := [{ id := 7, client_indices := List.replicate MAX_CLIENTS_PER_AP (-1) }]
    clients := [{ mac := ['A', 'A'], rssi := -40, ap_index := 0 }] }

/-- One network with a linked client (weak signal) and one without (strong
signal), plus the linked client, exercising both sort categories and the
relink repass. -/
def c1WitNetA : Network :=
  { id := 1, rssi := -70, client_count := 1,
    client_indices := (0 : Int) :: List.replicate 15 (-1) }

/-- The clientless, stronger network of the witness state. -/
def c1WitNetB : Network :=
  { id := 2, rssi := -30, client_count := 0,
    client_indices := List.replicate 16 (-1) }

/-- The witness inventory: clientless strong network first, so the sort has
to move the client-holding weak network ahead of it. -/
def c1WitState : AppState :=
  { emptyApp with
    networks := [c1WitNetB, c1WitNetA]
    clients := [{ mac := ['A', 'A'], rssi := -40, ap_index := 1 }] }

/-! ### Helper lemmas -/

/-- Any successfully parsed binary network message carries an all-unlinked
client-index list: the slots are initialized to `-1` and never touched by
the field parser. -/
theorem parseNetworkFields_indices (b : List Char) (net : Network)
    (h : parseNetworkFields b = some net) :
    net.client_indices = List.replicate MAX_CLIENTS_PER_AP (-1) := by
  unfold parseNetworkFields at h
  cases h0 : (cTokens b '|')[0]? <;> simp [h0] at h
  cases h1 : (cTokens b '|')[1]? <;> simp [h1] at h
  cases h2 : (cTokens b '|')[2]? <;> simp [h2] at h
  cases h3 : (cTokens b '|')[3]? <;> simp [h3] at h
  cases h4 : (cTokens b '|')[4]? <;> simp [h4] at h
  subst h
  rfl

/-- The credential append either leaves the log untouched or appends the
whole line plus its newline. -/
theorem credAppend_all_or_nothing (c l : List Char) :
    credAppend c l = c ∨ credAppend c l = c ++ l ++ ['\n'] := by
  by_cases h1 : l.length < credSpace c.length
  · exact Or.inr (by unfold credAppend; rw [if_pos h1])
  · exact Or.inl (by unfold credAppend; rw [if_neg h1])

/-- The credential append keeps the log within its capacity: at most 510
payload bytes, leaving room for the terminator inside the 512-byte field. -/
theorem credAppend_length (c l : List Char) (h : c.length ≤ 510) :
    (credAppend c l).length ≤ 510 := by
  by_cases h1 : l.length < credSpace c.length
  · unfold credAppend
    rw [if_pos h1]
    unfold credSpace at h1
    rw [if_pos h] at h1
    simp only [List.length_append, List.length_cons, List.length_nil]
    omega
  · unfold credAppend
    rw [if_neg h1]
    exact h

/-! ### C3 -/

/-- Claim C3 (code bug): decoding the legacy line
`AP:1:TestNet:11:22:33:44:55:66:6:1049600:-55` does append exactly one
network, but the decoder's colon-to-pipe replacement splits the
colon-formatted BSSID into separate fields, so the stored network has
`bssid = "11"`, `channel = 22`, `security = 33`, `rssi = 44` and
`client_count = 55` instead of the claimed
`bssid = "11:22:33:44:55:66"`, `channel = 6`, `security = 1049600`,
`rssi = -55` — the decode is not equivalent to the binary form. -/
theorem c3_legacy_ap_mac_mangled :
    (process_rx_line emptyApp c3Line).networks =
      [{ id := 1
         ssid := ['T', 'e', 's', 't', 'N', 'e', 't']
         bssid := ['1', '1']
         channel := 22
         security := 33
         rssi := 44
         client_count := 55
         is_5ghz := false
         client_indices := List.replicate MAX_CLIENTS_PER_AP (-1) }] := by
  decide

/-! ### C4 -/

/-- Claim C4 (confirmed): processing the binary message with tag `'n'` and
body `3|MyAP|AA:BB:CC:DD:EE:FF|6|-42|2|0|WPA2-AES|0|0` while the network
collection is not full appends exactly one network with the claimed fields
(id 3, ssid "MyAP", bssid "AA:BB:CC:DD:EE:FF", channel 6, rssi −42,
2.4 GHz, zero clients, "WPA2-AES", no PMF, not hidden) and changes nothing
else in the inventory. -/
theorem c4_binary_network_scenario (s : AppState)
    (h : s.networks.length < MAX_NETWORKS) :
    (process_rx_message s ('n' :: c4Body)).networks = s.networks ++ [c4Expected] ∧
    (process_rx_message s ('n' :: c4Body)).clients = s.clients := by
  have hb : parseNetworkFields (normSep (c4Body.take 127)) = some c4Expected := by
    decide
  have h64 : ¬ (s.networks.length ≥ MAX_NETWORKS) := Nat.not_le.mpr h
  simp [process_rx_message, parse_network_message, h64, hb]

/-- Witness for C4 at the empty state. -/
theorem c4_binary_network_scenario_witness :
    (process_rx_message emptyApp ('n' :: c4Body)).networks = [c4Expected] :=
  (c4_binary_network_scenario emptyApp (by decide)).1

/-! ### C5 -/

/-- Claim C5 (confirmed): a valid binary network message (one whose five
required fields are present, so the parse succeeds) decoded with free
capacity grows the network collection by exactly one, and the new entry's
client-index list is all-unlinked (`-1` in every slot); decoded at maximum
capacity (64 networks), the whole state — in particular every existing
entry — is left unchanged. -/
theorem c5_network_capacity (s : AppState) (data : List Char) (net : Network)
    (hv : parseNetworkFields (normSep (data.take 127)) = some net) :
    (s.networks.length < MAX_NETWORKS →
      (parse_network_message s data).networks = s.networks ++ [net] ∧
      net.client_indices = List.replicate MAX_CLIENTS_PER_AP (-1)) ∧
    (s.networks.length = MAX_NETWORKS → parse_network_message s data = s) := by
  constructor
  · intro hlt
    have h64 : ¬ (s.networks.length ≥ MAX_NETWORKS) := Nat.not_le.mpr hlt
    refine ⟨?_, parseNetworkFields_indices _ _ hv⟩
    simp [parse_network_message, h64, hv]
  · intro heq
    have h64 : s.networks.length ≥ MAX_NETWORKS := heq.ge
    simp [parse_network_message, h64]

/-- Witness for C5: the scenario body appended to the empty state, and
discarded at an artificial 64-network state. -/
theorem c5_network_capacity_witness :
    (parse_network_message emptyApp c4Body).networks = [c4Expected] ∧
    parse_network_message
      { emptyApp with networks := List.replicate 64 c4Expected } c4Body =
      { emptyApp with networks := List.replicate 64 c4Expected } := by
  have h := c5_network_capacity emptyApp c4Body c4Expected (by decide)
  have h2 := c5_network_capacity
    { emptyApp with networks := List.replicate 64 c4Expected } c4Body c4Expected
    (by decide)
  exact ⟨(h.1 (by decide)).1, h2.2 (by decide)⟩

/-! ### C7 -/

/-- Claim C7 (confirmed): when no response at all arrives during the boot
wait or any of the five probe windows, firmware detection resolves to the
Unknown profile, whose attached capability set enables only WiFi scan and
broadcast deauth and disables every other capability. -/
theorem c7_detection_unknown_minimal :
    (detect_firmware detectInit [] [] [] [] [] []).app.firmware_type = .unknown ∧
    (detect_firmware detectInit [] [] [] [] [] []).app.caps.wifi_scan = true ∧
    (detect_firmware detectInit [] [] [] [] [] []).app.caps.broadcast_deauth = true ∧
    (detect_firmware detectInit [] [] [] [] [] []).app.caps.wifi_scan_5ghz = false ∧
    (detect_firmware detectInit [] [] [] [] [] []).app.caps.client_detection = false ∧
    (detect_firmware detectInit [] [] [] [] [] []).app.caps.targeted_deauth = false ∧
    (detect_firmware detectInit [] [] [] [] [] []).app.caps.beacon_spam = false ∧
    (detect_firmware detectInit [] [] [] [] [] []).app.caps.evil_twin = false ∧
    (detect_firmware detectInit [] [] [] [] [] []).app.caps.ble_scan = false ∧
    (detect_firmware detectInit [] [] [] [] [] []).app.caps.ble_spam = false ∧
    (detect_firmware detectInit [] [] [] [] [] []).app.caps.channel_hop = false ∧
    (detect_firmware detectInit [] [] [] [] [] []).app.caps.monitor_mode = false ∧
    (detect_firmware detectInit [] [] [] [] [] []).app.caps.eapol_capture = false := by
  decide

/-! ### C10 -/

/-- Claim C10 (confirmed): appending a captured credential — the binary
`'C'` message body or the payload of a legacy `EV:` line — to the fixed
512-byte credential log is all-or-nothing: either the stored text is left
completely unchanged or the whole line plus its newline terminator is
appended, and the log's payload never exceeds 510 bytes, so it stays
null-terminated within its fixed capacity. -/
theorem c10_credential_all_or_nothing (s : AppState) (data line : List Char)
    (hev : line = ['E', 'V', ':'] ++ line.drop 3) :
    ((parse_credential_message s data).credentials = s.credentials ∨
      (parse_credential_message s data).credentials =
        s.credentials ++ normSep (data.take 255) ++ ['\n']) ∧
    ((process_rx_line s line).credentials = s.credentials ∨
      (process_rx_line s line).credentials =
        s.credentials ++ line.drop 3 ++ ['\n']) ∧
    (s.credentials.length ≤ 510 →
      (parse_credential_message s data).credentials.length ≤ 510 ∧
      (process_rx_line s line).credentials.length ≤ 510) := by
  have hline : (process_rx_line s line).credentials =
      credAppend s.credentials (line.drop 3) := by
    rw [hev]
    simp [process_rx_line, List.isPrefixOf]
    split
    · next hcond => exact absurd hcond (by omega)
    · rfl
  refine ⟨credAppend_all_or_nothing _ _, ?_, fun hlen => ?_⟩
  · rw [hline]
    exact credAppend_all_or_nothing _ _
  · constructor
    · exact credAppend_length _ _ hlen
    · rw [hline]
      exact credAppend_length _ _ hlen

/-- Witness for C10 at a concrete state and credential line. -/
theorem c10_credential_all_or_nothing_witness :
    (['E', 'V', ':', 'u', '|', 'p'] : List Char) =
      ['E', 'V', ':'] ++ (['E', 'V', ':', 'u', '|', 'p'] : List Char).drop 3 ∧
    (((parse_credential_message emptyApp ['u', '|', 'p']).credentials =
        emptyApp.credentials ∨
      (parse_credential_message emptyApp ['u', '|', 'p']).credentials =
        emptyApp.credentials ++ normSep ((['u', '|', 'p'] : List Char).take 255) ++ ['\n']) ∧
    ((process_rx_line emptyApp ['E', 'V', ':', 'u', '|', 'p']).credentials =
        emptyApp.credentials ∨
      (process_rx_line emptyApp ['E', 'V', ':', 'u', '|', 'p']).credentials =
        emptyApp.credentials ++ (['E', 'V', ':', 'u', '|', 'p'] : List Char).drop 3 ++ ['\n']) ∧
    (emptyApp.credentials.length ≤ 510 →
      (parse_credential_message emptyApp ['u', '|', 'p']).credentials.length ≤ 510 ∧
      (process_rx_line emptyApp ['E', 'V', ':', 'u', '|', 'p']).credentials.length ≤ 510)) :=
  ⟨by decide,
   c10_credential_all_or_nothing emptyApp ['u', '|', 'p']
     ['E', 'V', ':', 'u', '|', 'p'] (by decide)⟩

/-! ### C6 -/

/-- Claim C6 (confirmed): a client message whose extracted MAC token equals
the MAC of a client already stored — in the binary dialect or in the legacy
`CLIENT:`/`STA:` dialect — leaves the whole application state (in
particular the Client collection and every network's client-index list)
unchanged: the duplicate scan returns before any mutation. -/
theorem c6_duplicate_mac_noop (s : AppState) (data line m m2 : List Char)
    (aid r : Int)
    (hbin : (clientTokens data)[1]? = some m)
    (hdupb : ∃ cl ∈ s.clients, cl.mac = m)
    (hpre : (['C', 'L', 'I', 'E', 'N', 'T', ':'] : List Char).isPrefixOf line ∨
            (['S', 'T', 'A', ':'] : List Char).isPrefixOf line)
    (hleg : legacyClientFields line = some (aid, m2, r))
    (hdupl : ∃ cl ∈ s.clients, cl.mac = m2) :
    parse_client_message s data = s ∧ process_rx_line s line = s := by
  have hanyb : s.clients.any (fun cl => cl.mac = m) = true := by
    rw [List.any_eq_true]
    obtain ⟨cl, hcl, hm⟩ := hdupb
    exact ⟨cl, hcl, decide_eq_true hm⟩
  have hanyl : s.clients.any (fun cl => cl.mac = m2) = true := by
    rw [List.any_eq_true]
    obtain ⟨cl, hcl, hm⟩ := hdupl
    exact ⟨cl, hcl, decide_eq_true hm⟩
  constructor
  · -- binary dialect
    have h1 : 1 < (clientTokens data).length := by
      rcases List.getElem?_eq_some.mp hbin with ⟨h, -⟩
      exact h
    have h0 : (clientTokens data)[0]? = some ((clientTokens data).get ⟨0, by omega⟩) :=
      List.getElem?_eq_getElem (by omega)
    unfold parse_client_message
    by_cases hcap : s.clients.length ≥ MAX_CLIENTS
    · rw [if_pos hcap]
    · rw [if_neg hcap]
      simp only [h0, hbin, hanyb, if_true]
  · -- legacy dialect
    rcases hpre with hp | hp
    · obtain ⟨t, rfl⟩ := List.isPrefixOf_iff_prefix.mp hp
      unfold process_rx_line
      simp only [List.isPrefixOf, List.cons_append, Char.reduceEq,
        Bool.false_and, Bool.and_self, List.length_cons, List.length_append]
      rw [if_neg (by simp), if_neg (by simp [List.isPrefixOf]),
        if_pos (by simp [List.isPrefixOf])]
      by_cases hcap : s.clients.length ≥ MAX_CLIENTS
      · rw [if_pos hcap]
      · rw [if_neg hcap]
        simp only [List.cons_append, List.nil_append] at hleg ⊢
        rw [hleg]
        cases hf : s.networks.findIdx? (fun n => n.id = aid) with
        | none => simp [hf]
        | some i => simp [hf, hanyl]
    · obtain ⟨t, rfl⟩ := List.isPrefixOf_iff_prefix.mp hp
      unfold process_rx_line
      rw [if_neg (by simp), if_neg (by simp [List.isPrefixOf]),
        if_pos (by simp [List.isPrefixOf])]
      by_cases hcap : s.clients.length ≥ MAX_CLIENTS
      · rw [if_pos hcap]
      · rw [if_neg hcap]
        simp only [List.cons_append, List.nil_append] at hleg ⊢
        rw [hleg]
        cases hf : s.networks.findIdx? (fun n => n.id = aid) with
        | none => simp [hf]
        | some i => simp [hf, hanyl]

/-- Witness for C6: one stored client, the same MAC arriving again in both
dialects. -/
theorem c6_duplicate_mac_noop_witness :
    parse_client_message
      { emptyApp with
        networks := [{ id := 0 }]
        clients := [{ mac := ['A', 'A'], rssi := -50, ap_index := 0 }] }
      ['0', '|', 'A', 'A', '|', '-', '5', '0'] =
      { emptyApp with
        networks := [{ id := 0 }]
        clients := [{ mac := ['A', 'A'], rssi := -50, ap_index := 0 }] } ∧
    process_rx_line
      { emptyApp with
        networks := [{ id := 0 }]
        clients := [{ mac := ['A', 'A'], rssi := -50, ap_index := 0 }] }
      ['S', 'T', 'A', ':', '0', ':', 'A', 'A', ':', '-', '5', '0'] =
      { emptyApp with
        networks := [{ id := 0 }]
        clients := [{ mac := ['A', 'A'], rssi := -50, ap_index := 0 }] } :=
  c6_duplicate_mac_noop
    { emptyApp with
      networks := [{ id := 0 }]
      clients := [{ mac := ['A', 'A'], rssi := -50, ap_index := 0 }] }
    ['0', '|', 'A', 'A', '|', '-', '5', '0']
    ['S', 'T', 'A', ':', '0', ':', 'A', 'A', ':', '-', '5', '0']
    ['A', 'A'] ['A', 'A'] 0 (-50)
    (by decide) (by decide) (Or.inr (by decide))
    (by decide) (by decide)

/-! ### C8 -/

/-- One framer step preserves the buffer capacity bound. -/
theorem rx_step_buf_le (st : RxState) (b : Char)
    (h : st.buf.length ≤ RX_LINE_CAP) :
    (rx_step st b).buf.length ≤ RX_LINE_CAP := by
  unfold rx_step
  split_ifs with h1 h2 h3 h4 h5 h6 h7 h8 <;>
    simp_all <;> omega

/-- Claim C8 (confirmed): for every possible input byte sequence the framer
never writes past its fixed-capacity buffer (255 payload bytes of the
256-byte `rx_line`); a binary start byte resets the accumulation and enters
frame mode, discarding any legacy partial line; a byte arriving inside a
frame when the buffer is full (other than the frame marker bytes) is
silently dropped, leaving the state unchanged; and an end byte while in
frame mode dispatches the accumulated bytes as one message to
`process_rx_message` and leaves frame mode with an empty buffer. -/
theorem c8_framer_safety :
    (∀ (st : RxState) (bytes : List Char), st.buf.length ≤ RX_LINE_CAP →
       (processBytes st bytes).buf.length ≤ RX_LINE_CAP) ∧
    (∀ st : RxState,
       rx_step st PROTO_STX = { st with in_message := true, buf := [] }) ∧
    (∀ (st : RxState) (b : Char), st.in_message = true →
       st.buf.length = RX_LINE_CAP → b ≠ PROTO_STX → b ≠ PROTO_ETX →
       rx_step st b = st) ∧
    (∀ st : RxState, st.in_message = true →
       rx_step st PROTO_ETX =
         { in_message := false, buf := [],
           app := process_rx_message st.app st.buf }) := by
  refine ⟨?_, ?_, ?_, ?_⟩
  · intro st bytes
    induction bytes generalizing st with
    | nil => exact fun h => h
    | cons b rest ih =>
      intro h
      exact ih (rx_step st b) (rx_step_buf_le st b h)
  · intro st
    unfold rx_step
    rw [if_pos rfl]
  · intro st b hin hfull hstx hetx
    unfold rx_step
    rw [if_neg hstx, if_neg (by simp [hetx]), if_pos hin,
      if_neg (by omega)]
  · intro st hin
    unfold rx_step
    have hne : PROTO_ETX ≠ PROTO_STX := by decide
    rw [if_neg hne, if_pos ⟨rfl, hin⟩]

/-- Witness for C8: the invariant on a concrete byte train, the STX reset, a
dropped byte at a full buffer, and an ETX dispatch. -/
theorem c8_framer_safety_witness :
    (processBytes { app := emptyApp } [PROTO_STX, 'n', '1', PROTO_ETX, 'x']).buf.length
        ≤ RX_LINE_CAP ∧
    rx_step { in_message := false, buf := ['a'], app := emptyApp } PROTO_STX =
      { in_message := true, buf := [], app := emptyApp } ∧
    rx_step { in_message := true, buf := List.replicate RX_LINE_CAP 'z',
              app := emptyApp } 'q' =
      { in_message := true, buf := List.replicate RX_LINE_CAP 'z', app := emptyApp } ∧
    rx_step { in_message := true, buf := ['n', '7'], app := emptyApp } PROTO_ETX =
      { in_message := false, buf := [],
        app := process_rx_message emptyApp ['n', '7'] } :=
  ⟨c8_framer_safety.1 { app := emptyApp } [PROTO_STX, 'n', '1', PROTO_ETX, 'x']
     (by decide),
   c8_framer_safety.2.1 { in_message := false, buf := ['a'], app := emptyApp },
   c8_framer_safety.2.2.1
     { in_message := true, buf := List.replicate RX_LINE_CAP 'z', app := emptyApp }
     'q' rfl (by simp) (by decide) (by decide),
   c8_framer_safety.2.2.2
     { in_message := true, buf := ['n', '7'], app := emptyApp } rfl⟩

/-! ### C2 -/

/-- Counterexample to claim C2: decoding a binary network message carrying
client count 7 stores 7 as the network's client count although its freshly
zeroed client-index list holds no valid entry — the wire-supplied count is
trusted as the stored count, not recomputed. -/
theorem c2_counterexample :
    ((parse_network_message emptyApp c2Body).networks.all
      (fun net => net.client_count = (countValidEntries net : Int))) = false := by
  decide

/-- Claim C2 as amended: the binary network decoder stores the wire-supplied
count (field 7) directly as the new network's count, while its index list
starts all-unlinked; the recompute-never-trust policy applies to the binary
client decoder's link placement: a newly linked client is written at the
recomputed occupancy of the owning network's index list (the scan over the
actual slots, not the stored count), and the stored count is raised to
`max(stored, occupancy + 1)`. -/
theorem c2_count_policy
    (b : List Char) (net : Network) (t : List Char)
    (s : AppState) (data t0 m : List Char)
    (hnf : parseNetworkFields b = some net)
    (h6 : (cTokens b '|')[6]? = some t)
    (hcap : s.clients.length < MAX_CLIENTS)
    (h0 : (clientTokens data)[0]? = some t0)
    (h1 : (clientTokens data)[1]? = some m)
    (hnodup : s.clients.any (fun cl => cl.mac = m) = false)
    (hap0 : 0 ≤ atoi t0)
    (hap1 : atoi t0 < (s.networks.length : Int))
    (hocc : ((s.networks.getD (atoi t0).toNat default).client_indices.takeWhile
        (fun x => x ≥ 0)).length < MAX_CLIENTS_PER_AP) :
    net.client_count = atoi t ∧
    (parse_client_message s data).networks =
      s.networks.set (atoi t0).toNat
        { s.networks.getD (atoi t0).toNat default with
          client_indices :=
            (s.networks.getD (atoi t0).toNat default).client_indices.set
              ((s.networks.getD (atoi t0).toNat default).client_indices.takeWhile
                (fun x => x ≥ 0)).length (s.clients.length : Int)
          client_count :=
            max ((s.networks.getD (atoi t0).toNat default).client_count)
              ((((s.networks.getD (atoi t0).toNat default).client_indices.takeWhile
                (fun x => x ≥ 0)).length : Int) + 1) } ∧
    (parse_client_message s data).clients.length = s.clients.length + 1 := by
  constructor
  · -- network decoder: wire count stored directly
    unfold parseNetworkFields at hnf
    cases ha : (cTokens b '|')[0]? <;> simp [ha] at hnf
    cases hb : (cTokens b '|')[1]? <;> simp [hb] at hnf
    cases hc : (cTokens b '|')[2]? <;> simp [hc] at hnf
    cases hd : (cTokens b '|')[3]? <;> simp [hd] at hnf
    cases he : (cTokens b '|')[4]? <;> simp [he] at hnf
    subst hnf
    simp [h6]
  · -- client decoder: link placed from recomputed occupancy
    have hnocap : ¬ (s.clients.length ≥ MAX_CLIENTS) := Nat.not_le.mpr hcap
    have hval : ¬ (atoi t0 < 0 ∨ atoi t0 ≥ (s.networks.length : Int)) := by
      push_neg
      exact ⟨by omega, by omega⟩
    unfold parse_client_message
    rw [if_neg hnocap]
    simp only [h0, h1, hnodup]
    rw [if_neg (by simp), if_neg hval, if_pos hocc]
    constructor
    · have hmax : ∀ cnt x : Int, (if x + 1 > cnt then x + 1 else cnt) = max cnt (x + 1) := by
        intro cnt x
        split_ifs <;> omega
      rw [hmax]
    · simp

/-- Witness for C2's amended statement: one network decoded from a message
with wire count 7, then one client linked into network 0 of a one-network
state. -/
theorem c2_count_policy_witness :
    ((parse_network_message emptyApp c2Body).networks.getD 0 default).client_count = 7 ∧
    (parse_client_message
        { emptyApp with
          networks := [{ id := 0, client_indices := List.replicate MAX_CLIENTS_PER_AP (-1) }]
          clients := [] }
        ['0', '|', 'A', 'A', '|', '-', '5', '5']).clients.length = 1 := by
  have h := c2_count_policy
    (normSep (c2Body.take 127))
    ((parse_network_message emptyApp c2Body).networks.getD 0 default)
    ['7']
    { emptyApp with
      networks := [{ id := 0, client_indices := List.replicate MAX_CLIENTS_PER_AP (-1) }]
      clients := [] }
    ['0', '|', 'A', 'A', '|', '-', '5', '5'] ['0'] ['A', 'A']
    (by decide) (by decide) (by decide) (by decide) (by decide)
    (by decide) (by decide) (by decide) (by decide)
  exact ⟨h.1, h.2.2⟩

/-! ### C9 -/

/-- Claim C9 (confirmed): with the session resolved to the Native
(Gattrose) profile and an in-range selected network whose deauth is not yet
active, the deauth path encodes and sends the LED command and the
deauth-by-id command and leaves the network's `deauth_active` flag true;
decoding the peripheral's `'d'` deauth-status acknowledgement keeps it
true; the subsequent stop path sends the stop command pair and leaves the
flag false, and decoding the stop confirmation keeps it false. -/
theorem c9_deauth_roundtrip (s : AppState) (i : Nat) (ack1 ack2 : List Char)
    (hconn : s.connected = true) (hfw : s.firmware_type = .gattrose)
    (hsel : s.selected_network = (i : Int)) (hi : i < s.networks.length)
    (hact : (s.networks.getD i default).deauth_active = false) :
    (do_deauth s).2 =
      [['r', '3'], deauthCmd (s.networks.getD i default).id s.deauth_reason] ∧
    ((do_deauth s).1.networks.getD i default).deauth_active = true ∧
    ((process_rx_message (do_deauth s).1 ('d' :: ack1)).networks.getD i
        default).deauth_active = true ∧
    (do_deauth (process_rx_message (do_deauth s).1 ('d' :: ack1))).2 =
      [['d', 's'], ['r', '0', ',', '2', '5', '5', ',', '0']] ∧
    ((do_deauth (process_rx_message (do_deauth s).1 ('d' :: ack1))).1.networks.getD
        i default).deauth_active = false ∧
    ((process_rx_message
        (do_deauth (process_rx_message (do_deauth s).1 ('d' :: ack1))).1
        ('d' :: ack2)).networks.getD i default).deauth_active = false := by
  have hguard : ¬ (¬ s.connected = true ∨ s.selected_network < 0 ∨
      s.selected_network ≥ (s.networks.length : Int)) := by
    push_neg
    refine ⟨hconn, ?_, ?_⟩ <;> rw [hsel] <;> omega
  have htoNat : s.selected_network.toNat = i := by
    rw [hsel]
    exact Int.toNat_natCast i
  have hgen : ∀ (l : List Network) (b : Bool), ∀ hj : i < l.length,
      ((setDeauthFlag l i b)[i]?.getD default).deauth_active = b := by
    intro l b hj
    unfold setDeauthFlag
    simp [List.getElem?_set_self hj]
  have hact2 : (s.networks[i]?.getD default).deauth_active = false := by
    simpa [List.getD] using hact
  have hstep1 : do_deauth s = ({ s with networks := setDeauthFlag s.networks i true }, [['r', '3'], deauthCmd (s.networks.getD i default).id s.deauth_reason]) := by
    unfold do_deauth setDeauthFlag
    rw [if_neg hguard]
    simp [htoNat, hact2, hfw, List.getD]
  have hlen1 : (setDeauthFlag s.networks i true).length = s.networks.length := by
    unfold setDeauthFlag
    simp
  have hi2 : i < (setDeauthFlag s.networks i true).length := by
    rw [hlen1]
    exact hi
  have hd1 : process_rx_message (do_deauth s).1 ('d' :: ack1) = (do_deauth s).1 := by
    unfold process_rx_message
    simp
  have hguard2 : ¬ (¬ s.connected = true ∨ s.selected_network < 0 ∨
      s.selected_network ≥ ((setDeauthFlag s.networks i true).length : Int)) := by
    rw [hlen1]
    exact hguard
  have hstep2 : do_deauth ({ s with networks := setDeauthFlag s.networks i true }) = ({ s with networks := setDeauthFlag (setDeauthFlag s.networks i true) i false }, [['d', 's'], ['r', '0', ',', '2', '5', '5', ',', '0']]) := by
    unfold do_deauth
    rw [if_neg hguard2]
    conv_rhs => rw [setDeauthFlag]
    simp [htoNat, hfw, List.getD]
    exact hgen _ true hi
  have hd2 : ∀ t : AppState, process_rx_message t ('d' :: ack2) = t := by
    intro t
    unfold process_rx_message
    simp
  refine ⟨by rw [hstep1], ?_, ?_, ?_, ?_, ?_⟩
  · rw [hstep1]
    simpa [List.getD] using hgen s.networks true hi
  · rw [hd1, hstep1]
    simpa [List.getD] using hgen s.networks true hi
  · rw [hd1, hstep1, hstep2]
  · rw [hd1, hstep1, hstep2]
    simpa [List.getD] using hgen (setDeauthFlag s.networks i true) false hi2
  · rw [hd2, hd1, hstep1, hstep2]
    simpa [List.getD] using hgen (setDeauthFlag s.networks i true) false hi2

/-- Witness for C9: one Native-profile state with a single selected network. -/
theorem c9_deauth_roundtrip_witness :
    ((do_deauth { emptyApp with
        connected := true
        firmware_type := .gattrose
        deauth_reason := 2
        networks := [{ id := 5 }]
        selected_network := 0 }).1.networks.getD 0 default).deauth_active = true ∧
    (do_deauth { emptyApp with
        connected := true
        firmware_type := .gattrose
        deauth_reason := 2
        networks := [{ id := 5 }]
        selected_network := 0 }).2 =
      [['r', '3'],
       deauthCmd (({ emptyApp with
        connected := true
        firmware_type := .gattrose
        deauth_reason := 2
        networks := [{ id := 5 }]
        selected_network := 0 } : AppState).networks.getD 0 default).id 2] := by
  have h := c9_deauth_roundtrip
    { emptyApp with
      connected := true
      firmware_type := .gattrose
      deauth_reason := 2
      networks := [{ id := 5 }]
      selected_network := 0 }
    0 [] [] rfl rfl (by decide) (by decide) (by decide)
  exact ⟨h.2.1, h.1⟩

/-! ### C1: generic facts about the bubble sort -/

section BubbleFacts

variable {α β : Type} (f : α → α → Bool)

theorem bpassN_nil (k : Nat) : bpassN f k ([] : List α) = [] := by
  cases k <;> rfl

theorem bpassN_zero (l : List α) : bpassN f 0 l = l := by
  cases l <;> rfl

theorem bpassN_one (k : Nat) (a : α) : bpassN f k [a] = [a] := by
  cases k <;> rfl

theorem bpassN_cons₂ (k : Nat) (a b : α) (t : List α) :
    bpassN f (k + 1) (a :: b :: t) =
      if f a b then b :: bpassN f k (a :: t) else a :: bpassN f k (b :: t) := by
  rfl

/-- A pass permutes the list. -/
theorem bpassN_perm (k : Nat) (l : List α) : (bpassN f k l).Perm l := by
  induction k generalizing l with
  | zero => rw [bpassN_zero]
  | succ k ih =>
    match l with
    | [] => rw [bpassN_nil]
    | [a] => rw [bpassN_one]
    | a :: b :: t =>
      rw [bpassN_cons₂]
      by_cases hf : f a b
      · rw [if_pos hf]
        exact ((ih (a :: t)).cons b).trans (List.Perm.swap a b t)
      · rw [if_neg hf]
        exact (ih (b :: t)).cons a

theorem bpassN_subset {k : Nat} {l : List α} {x : α}
    (h : x ∈ bpassN f k l) : x ∈ l :=
  (bpassN_perm f k l).mem_iff.mp h

/-- A pass preserves any pairwise relation `S` that holds in reverse across
every exchanged pair. -/
theorem bpassN_pairwise {S : α → α → Prop}
    (hS : ∀ a b, f a b = true → S b a) :
    ∀ (k : Nat) (l : List α), l.Pairwise S → (bpassN f k l).Pairwise S := by
  intro k
  induction k with
  | zero =>
    intro l h
    rw [bpassN_zero]
    exact h
  | succ k ih =>
    intro l h
    match l with
    | [] => rw [bpassN_nil]; exact h
    | [a] => rw [bpassN_one]; exact h
    | a :: b :: t =>
      rw [bpassN_cons₂]
      rcases List.pairwise_cons.mp h with ⟨ha, h2⟩
      rcases List.pairwise_cons.mp h2 with ⟨hb, ht⟩
      by_cases hf : f a b
      · rw [if_pos hf]
        refine List.pairwise_cons.mpr ⟨?_, ih _ ?_⟩
        · intro x hx
          rcases List.mem_cons.mp (bpassN_subset f hx) with hxa | hxt
          · subst hxa
            exact hS _ _ hf
          · exact hb x hxt
        · exact List.pairwise_cons.mpr
            ⟨fun x hx => ha x (List.mem_cons_of_mem b hx), ht⟩
      · rw [if_neg hf]
        refine List.pairwise_cons.mpr ⟨?_, ih _ h2⟩
        intro x hx
        exact ha x (bpassN_subset f hx)

/-- A pass commutes with mapping when the swap predicate only looks at the
mapped value (used to run the sort on position-tagged elements). -/
theorem bpassN_map (g : β → α) :
    ∀ (k : Nat) (l : List β),
      (bpassN (fun x y => f (g x) (g y)) k l).map g = bpassN f k (l.map g) := by
  intro k
  induction k with
  | zero =>
    intro l
    rw [bpassN_zero, bpassN_zero]
  | succ k ih =>
    intro l
    match l with
    | [] => rw [bpassN_nil]; rfl
    | [a] => rw [bpassN_one]; rfl
    | a :: b :: t =>
      rw [bpassN_cons₂, List.map_cons, List.map_cons, bpassN_cons₂]
      by_cases hf : f (g a) (g b)
      · rw [if_pos hf, if_pos hf, List.map_cons, ih (a :: t), List.map_cons]
      · rw [if_neg hf, if_neg hf, List.map_cons, ih (b :: t), List.map_cons]

/-- The outer loop permutes the list. -/
theorem bubbleAux_perm (k : Nat) (l : List α) : (bubbleAux f k l).Perm l := by
  induction k generalizing l with
  | zero => exact List.Perm.refl l
  | succ k ih => exact (ih (bpassN f (k + 1) l)).trans (bpassN_perm f (k + 1) l)

/-- The sort permutes the list. -/
theorem bubbleSort_perm (l : List α) : (bubbleSort f l).Perm l :=
  bubbleAux_perm f (l.length - 1) l

/-- The outer loop preserves any pairwise relation preserved by passes. -/
theorem bubbleAux_pairwise {S : α → α → Prop}
    (hS : ∀ a b, f a b = true → S b a) :
    ∀ (k : Nat) (l : List α), l.Pairwise S → (bubbleAux f k l).Pairwise S := by
  intro k
  induction k with
  | zero => exact fun l h => h
  | succ k ih => exact fun l h => ih _ (bpassN_pairwise f hS _ _ h)

/-- The sort preserves any pairwise relation preserved by passes. -/
theorem bubbleSort_pairwise {S : α → α → Prop}
    (hS : ∀ a b, f a b = true → S b a)
    (l : List α) (h : l.Pairwise S) : (bubbleSort f l).Pairwise S :=
  bubbleAux_pairwise f hS _ _ h

/-- The outer loop commutes with tag-erasing. -/
theorem bubbleAux_map (g : β → α) :
    ∀ (k : Nat) (l : List β),
      (bubbleAux (fun x y => f (g x) (g y)) k l).map g = bubbleAux f k (l.map g) := by
  intro k
  induction k with
  | zero => intro l; rfl
  | succ k ih =>
    intro l
    show (bubbleAux _ k (bpassN _ (k + 1) l)).map g = bubbleAux f k (bpassN f (k + 1) (l.map g))
    rw [ih, bpassN_map]

/-- The sort commutes with tag-erasing. -/
theorem bubbleSort_map (g : β → α) (l : List β) :
    (bubbleSort (fun x y => f (g x) (g y)) l).map g = bubbleSort f (l.map g) := by
  unfold bubbleSort
  rw [bubbleAux_map, List.length_map]

variable (P : α → Prop)

/-- The swap predicate never fires on a pair and its reverse, so it never
fires reflexively. -/
theorem swap_irrefl (htot : ∀ a b, f a b = true → f b a = false) (a : α) :
    f a a = false := by
  cases hfa : f a a
  · rfl
  · have h2 := htot a a hfa
    rw [hfa] at h2
    exact h2

/-- Specification of one bounded pass: the pass result splits as
`p ++ z :: q` where `p ++ [z]` permutes the touched prefix, `q` is the
untouched suffix, and `z` — the element the pass sank to the last touched
position — is a minimum of the touched prefix (every touched element does
not want to swap with it). -/
theorem bpassN_spec
    (htot : ∀ a b, f a b = true → f b a = false)
    (htrans : ∀ a b c, P a → P b → P c →
      f a b = false → f b c = false → f a c = false) :
    ∀ (k : Nat) (l : List α), l ≠ [] → (∀ x ∈ l, P x) →
    ∃ p z q, bpassN f k l = p ++ z :: q ∧
      (p ++ [z]).Perm (l.take (min (k + 1) l.length)) ∧
      q = l.drop (min (k + 1) l.length) ∧
      (∀ x ∈ p, f x z = false) ∧
      (∀ x ∈ l.take (min (k + 1) l.length), f x z = false) := by
  intro k
  induction k with
  | zero =>
    intro l hne hP
    match l, hne with
    | a :: t, _ =>
      have hmin : min 1 (a :: t).length = 1 := by
        simp
      refine ⟨[], a, t, ?_, ?_, ?_, ?_, ?_⟩
      · rw [bpassN_zero]
        rfl
      · rw [hmin]
        simp
      · rw [hmin]
        rfl
      · intro x hx
        cases hx
      · intro x hx
        rw [hmin] at hx
        simp at hx
        subst hx
        exact swap_irrefl f htot _
  | succ k ih =>
    intro l hne hP
    match l with
    | [a] =>
      have hmin : min (k + 1 + 1) ([a] : List α).length = 1 := by
        simp
      refine ⟨[], a, [], ?_, ?_, ?_, ?_, ?_⟩
      · rw [bpassN_one]
        rfl
      · simp [hmin]
      · simp [hmin]
      · intro x hx
        cases hx
      · intro x hx
        simp [hmin] at hx
        subst hx
        exact swap_irrefl f htot _
    | a :: b :: t =>
      have hm1 : min (k + 1) (a :: t).length = min k t.length + 1 := by
        simp only [List.length_cons]
        omega
      have hm1b : min (k + 1) (b :: t).length = min k t.length + 1 := by
        simp only [List.length_cons]
        omega
      have hm2 : min (k + 1 + 1) (a :: b :: t).length = min k t.length + 2 := by
        simp only [List.length_cons]
        omega
      rw [bpassN_cons₂]
      by_cases hf : f a b
      · rw [if_pos hf]
        obtain ⟨p, z, q, he, hperm, hq, hpz, htake⟩ :=
          ih (a :: t) (by simp) (fun x hx => hP x (by
            rcases List.mem_cons.mp hx with h | h
            · subst h
              exact List.mem_cons_self _ _
            · exact List.mem_cons_of_mem a (List.mem_cons_of_mem b h)))
        rw [hm1] at hperm hq htake
        rw [List.take_succ_cons] at hperm htake
        rw [List.drop_succ_cons] at hq
        have hzmem : z ∈ a :: t.take (min k t.length) :=
          hperm.subset (by simp)
        have hzl : z ∈ a :: b :: t := by
          rcases List.mem_cons.mp hzmem with h | h
          · subst h
            exact List.mem_cons_self _ _
          · exact List.mem_cons_of_mem a (List.mem_cons_of_mem b
              (List.take_subset _ t h))
        have hfaz : f a z = false := htake a (List.mem_cons_self _ _)
        have hfbz : f b z = false :=
          htrans b a z
            (hP b (List.mem_cons_of_mem a (List.mem_cons_self b t)))
            (hP a (List.mem_cons_self a (b :: t)))
            (hP z hzl) (htot a b hf) hfaz
        refine ⟨b :: p, z, q, ?_, ?_, ?_, ?_, ?_⟩
        · rw [he]
          rfl
        · rw [hm2, List.take_succ_cons, List.take_succ_cons]
          exact ((hperm.cons b).trans (List.Perm.swap a b _) :
            (b :: (p ++ [z])).Perm (a :: b :: t.take (min k t.length)))
        · rw [hm2, List.drop_succ_cons, List.drop_succ_cons]
          exact hq
        · intro x hx
          rcases List.mem_cons.mp hx with h | h
          · exact h ▸ hfbz
          · exact hpz x h
        · intro x hx
          rw [hm2, List.take_succ_cons, List.take_succ_cons] at hx
          rcases List.mem_cons.mp hx with h | h
          · exact h ▸ hfaz
          · rcases List.mem_cons.mp h with h2 | h2
            · exact h2 ▸ hfbz
            · exact htake x (List.mem_cons_of_mem a h2)
      · rw [if_neg hf]
        obtain ⟨p, z, q, he, hperm, hq, hpz, htake⟩ :=
          ih (b :: t) (by simp) (fun x hx => hP x (List.mem_cons_of_mem a hx))
        rw [hm1b] at hperm hq htake
        rw [List.take_succ_cons] at hperm htake
        rw [List.drop_succ_cons] at hq
        have hzmem : z ∈ b :: t.take (min k t.length) :=
          hperm.subset (by simp)
        have hzl : z ∈ a :: b :: t := by
          rcases List.mem_cons.mp hzmem with h | h
          · subst h
            exact List.mem_cons_of_mem a (List.mem_cons_self _ _)
          · exact List.mem_cons_of_mem a (List.mem_cons_of_mem b
              (List.take_subset _ t h))
        have hfbz : f b z = false := htake b (List.mem_cons_self _ _)
        have hfb : f a b = false := by
          simpa using hf
        have hfaz : f a z = false :=
          htrans a b z
            (hP a (List.mem_cons_self a (b :: t)))
            (hP b (List.mem_cons_of_mem a (List.mem_cons_self b t)))
            (hP z hzl) hfb hfbz
        refine ⟨a :: p, z, q, ?_, ?_, ?_, ?_, ?_⟩
        · rw [he]
          rfl
        · rw [hm2, List.take_succ_cons, List.take_succ_cons]
          exact (hperm.cons a : (a :: (p ++ [z])).Perm (a :: b :: t.take (min k t.length)))
        · rw [hm2, List.drop_succ_cons, List.drop_succ_cons]
          exact hq
        · intro x hx
          rcases List.mem_cons.mp hx with h | h
          · exact h ▸ hfaz
          · exact hpz x h
        · intro x hx
          rw [hm2, List.take_succ_cons, List.take_succ_cons] at hx
          rcases List.mem_cons.mp hx with h | h
          · exact h ▸ hfaz
          · rcases List.mem_cons.mp h with h2 | h2
            · exact h2 ▸ hfbz
            · exact htake x (List.mem_cons_of_mem b h2)

/-- The outer loop establishes the sorted order: with the loop invariant
that the suffix beyond the remaining budget is already settled (internally
sorted and dominated by every prefix element), each pass extends the
settled suffix by one. -/
theorem bubbleAux_sorted
    (htot : ∀ a b, f a b = true → f b a = false)
    (htrans : ∀ a b c, P a → P b → P c →
      f a b = false → f b c = false → f a c = false) :
    ∀ (k : Nat) (l : List α), (∀ x ∈ l, P x) → k + 1 ≤ l.length →
    (l.drop (k + 1)).Pairwise (fun a b => f a b = false) →
    (∀ x ∈ l.take (k + 1), ∀ y ∈ l.drop (k + 1), f x y = false) →
    (bubbleAux f k l).Pairwise (fun a b => f a b = false) := by
  intro k
  induction k with
  | zero =>
    intro l hP hlen hsort hdom
    show l.Pairwise _
    match l, hlen with
    | a :: t, _ =>
      refine List.pairwise_cons.mpr ⟨?_, ?_⟩
      · intro y hy
        exact hdom a (by simp) y (by simpa using hy)
      · simpa using hsort
  | succ k ih =>
    intro l hP hlen hsort hdom
    show (bubbleAux f k (bpassN f (k + 1) l)).Pairwise _
    obtain ⟨p, z, q, he, hperm, hq, hpz, htake⟩ :=
      bpassN_spec f P htot htrans (k + 1) l
        (by intro h; rw [h] at hlen; simp at hlen) hP
    have hmin : min (k + 1 + 1) l.length = k + 1 + 1 := by omega
    rw [hmin] at hperm hq htake
    have hlenp : p.length = k + 1 := by
      have h1 : (p ++ [z]).length = (l.take (k + 1 + 1)).length := hperm.length_eq
      simp only [List.length_append, List.length_singleton, List.length_take] at h1
      omega
    have hpassperm := bpassN_perm f (k + 1) l
    have hlen' : (bpassN f (k + 1) l).length = l.length := hpassperm.length_eq
    have hP' : ∀ x ∈ bpassN f (k + 1) l, P x :=
      fun x hx => hP x (hpassperm.subset hx)
    have hdrop : (bpassN f (k + 1) l).drop (k + 1) = z :: q := by
      rw [he, ← hlenp]
      exact List.drop_left p (z :: q)
    have htakeL : (bpassN f (k + 1) l).take (k + 1) = p := by
      rw [he, ← hlenp]
      exact List.take_left p (z :: q)
    have hz : z ∈ l.take (k + 1 + 1) := hperm.subset (by simp)
    apply ih (bpassN f (k + 1) l) hP' (by omega)
    · rw [hdrop]
      refine List.pairwise_cons.mpr ⟨?_, ?_⟩
      · intro y hy
        rw [hq] at hy
        exact hdom z hz y hy
      · rw [hq]
        exact hsort
    · rw [htakeL, hdrop]
      intro x hx y hy
      rcases List.mem_cons.mp hy with h | h
      · exact h ▸ hpz x hx
      · rw [hq] at h
        exact hdom x (hperm.subset (List.mem_append_left [z] hx)) y h

/-- The complete bubble sort leaves the list pairwise in order (no adjacent
or distant pair would still want to swap), for any swap predicate that is
asymmetric and whose negation is transitive over elements satisfying `P`. -/
theorem bubbleSort_sorted
    (htot : ∀ a b, f a b = true → f b a = false)
    (htrans : ∀ a b c, P a → P b → P c →
      f a b = false → f b c = false → f a c = false)
    (l : List α) (hP : ∀ x ∈ l, P x) :
    (bubbleSort f l).Pairwise (fun a b => f a b = false) := by
  match l with
  | [] => exact List.Pairwise.nil
  | a :: t =>
    show (bubbleAux f t.length (a :: t)).Pairwise _
    apply bubbleAux_sorted f P htot htrans t.length (a :: t) hP (by simp)
    · rw [show t.length + 1 = (a :: t).length from rfl, List.drop_length]
      exact List.Pairwise.nil
    · intro x hx y hy
      rw [show t.length + 1 = (a :: t).length from rfl, List.drop_length] at hy
      cases hy

end BubbleFacts

/-- Position tags of `List.enum` are strictly increasing along the list. -/
theorem pairwise_fst_lt_enum {β : Type} (l : List β) :
    (l.enum).Pairwise (fun x y => x.1 < y.1) := by
  rw [List.pairwise_iff_getElem]
  intro i j hi hj hij
  rw [List.enum_length] at hi hj
  simp only [List.getElem_enum]
  exact hij

/-- The swap predicate of `sort_networks` is asymmetric. -/
theorem network_should_swap_asymm (a b : Network)
    (h : network_should_swap a b = true) : network_should_swap b a = false := by
  unfold network_should_swap at h ⊢
  split_ifs at h ⊢ <;> simp_all <;> omega

/-- Over networks with non-negative stored client counts, the negation of
the swap predicate is transitive (it is the lexicographic "has clients
first, then stronger signal" order). -/
theorem network_should_swap_negtrans (a b c : Network)
    (hPa : 0 ≤ a.client_count) (hPb : 0 ≤ b.client_count)
    (hPc : 0 ≤ c.client_count)
    (hab : network_should_swap a b = false)
    (hbc : network_should_swap b c = false) :
    network_should_swap a c = false := by
  unfold network_should_swap at hab hbc ⊢
  split_ifs at hab hbc ⊢ <;> simp_all <;> omega

/-- Over non-negative counts, "does not want to swap" is exactly the
claim-shaped order. -/
theorem netOrdered_of_swap_false (a b : Network)
    (hPa : 0 ≤ a.client_count) (hPb : 0 ≤ b.client_count)
    (h : network_should_swap a b = false) : netOrdered a b := by
  unfold network_should_swap at h
  unfold netOrdered
  split_ifs at h with h1 h2
  · refine ⟨Or.inl h1.1, fun hiff => ?_⟩
    have := hiff.mp h1.1
    omega
  · have hr : b.rssi ≤ a.rssi := by
      cases hlt : decide (a.rssi < b.rssi) <;> simp_all
    constructor
    · rcases lt_or_ge 0 a.client_count with hgt | hle
      · exact Or.inl hgt
      · have ha0 : a.client_count = 0 := le_antisymm hle hPa
        by_cases hb : b.client_count > 0
        · exact absurd ⟨ha0, hb⟩ h2
        · exact Or.inr (by omega)
    · exact fun _ => hr

/-- The relink fold is the identity when no scanned network contains the
client. -/
theorem foldl_no_match (g : Nat → Bool) :
    ∀ (l : List Nat) (a : Int), (∀ k ∈ l, g k = false) →
      l.foldl (fun acc k => if g k then (k : Int) else acc) a = a := by
  intro l
  induction l with
  | nil => intro a _; rfl
  | cons y ys ih =>
    intro a hnone
    have hy : g y = false := hnone y (List.mem_cons_self _ _)
    rw [List.foldl_cons, if_neg (by simp [hy])]
    exact ih a (fun k hk => hnone k (List.mem_cons_of_mem y hk))

/-- Folding the relink scan picks an index whose network actually contains
the client (when one exists): the written back-reference is real. -/
theorem foldl_pick_contains (g : Nat → Bool) :
    ∀ (l : List Nat) (acc : Int), (∃ n ∈ l, g n = true) →
      ∃ n ∈ l, g n = true ∧
        l.foldl (fun a k => if g k then (k : Int) else a) acc = (n : Int) := by
  intro l
  induction l with
  | nil =>
    rintro acc ⟨n, h, -⟩
    cases h
  | cons x xs ih =>
    intro acc hex
    by_cases hxs : ∃ n ∈ xs, g n = true
    · obtain ⟨n, hn, hg, hfold⟩ := ih (if g x then (x : Int) else acc) hxs
      exact ⟨n, List.mem_cons_of_mem x hn, hg, hfold⟩
    · obtain ⟨n, hn, hg⟩ := hex
      have hx : g x = true := by
        rcases List.mem_cons.mp hn with h | h
        · exact h ▸ hg
        · exact absurd ⟨n, h, hg⟩ hxs
      have hnone : ∀ k ∈ xs, g k = false := by
        intro k hk
        cases hgk : g k
        · rfl
        · exact absurd ⟨k, hk, hgk⟩ hxs
      refine ⟨x, List.mem_cons_self _ _, hx, ?_⟩
      rw [List.foldl_cons, if_pos hx]
      exact foldl_no_match g xs (x : Int) hnone

/-- Counterexample to claim C1 as stated: on an inventory state holding a
client that no network's client-index list tracks, the post-sort repass
leaves that client's stale back-reference untouched (it only overwrites an
index when a scan hit occurs), so after the sort the client's stored
network index does not point to a network whose client-index list contains
the client's position. -/
theorem c1_counterexample :
    ¬ (∀ c, ∀ hc : c < (sort_networks c1CxState).clients.length,
      ∃ n, ∃ hn : n < (sort_networks c1CxState).networks.length,
        ((sort_networks c1CxState).clients.get ⟨c, hc⟩).ap_index = (n : Int) ∧
        (((sort_networks c1CxState).networks.get ⟨n, hn⟩).client_indices.take
          ((sort_networks c1CxState).networks.get ⟨n, hn⟩).client_count.toNat).contains
            (c : Int) = true) := by
  intro h
  have hc : 0 < (sort_networks c1CxState).clients.length := by decide
  obtain ⟨n, hn, ha, hb⟩ := h 0 hc
  have hn1 : (sort_networks c1CxState).networks.length = 1 := by decide
  have hn0 : n = 0 := by omega
  subst hn0
  have hgd : (sort_networks c1CxState).networks.get ⟨0, hn⟩ =
      (sort_networks c1CxState).networks.getD 0 default := by
    simp [List.get_eq_getElem, List.getD, List.getElem?_eq_getElem hn]
  rw [hgd] at hb
  revert hb
  decide

/-- Claim C1 as amended (the sort-order clauses hold as claimed with
client-presence read from the stored counts; the back-reference clause
additionally needs every client to be tracked by some network's index
list, since the repass leaves untracked clients' stale indices in place):
after `sort_networks`, (i) the networks are pairwise in the claimed order —
a network with a positive stored client count never follows one with count
zero, and within one category the stronger signal comes first; (ii) the
sort is stable: it equals the tag-erased run of the same sort on the
position-tagged list, in which tied networks (neither wants to swap with
the other) keep strictly increasing original positions; (iii) every
client's recomputed back-reference points to a network whose scanned
client-index prefix actually contains that client's position. -/
theorem c1_sort_order_and_relink (s : AppState)
    (hP : ∀ net ∈ s.networks, 0 ≤ net.client_count ∧ net.client_count ≤ 16)
    (hlink : ∀ c ∈ List.range s.clients.length, ∃ net ∈ s.networks,
      (net.client_indices.take net.client_count.toNat).contains (c : Int) = true) :
    ((sort_networks s).networks).Pairwise netOrdered ∧
    (sort_networks s).networks =
      (bubbleSort (fun x y => network_should_swap x.2 y.2) s.networks.enum).map
        Prod.snd ∧
    (bubbleSort (fun x y => network_should_swap x.2 y.2) s.networks.enum).Pairwise
      (fun x y => (network_should_swap x.2 y.2 = false ∧
        network_should_swap y.2 x.2 = false) → x.1 < y.1) ∧
    ∀ c, ∀ hc : c < (sort_networks s).clients.length,
      ∃ n, ∃ hn : n < (sort_networks s).networks.length,
        ((sort_networks s).clients.get ⟨c, hc⟩).ap_index = (n : Int) ∧
        (((sort_networks s).networks.get ⟨n, hn⟩).client_indices.take
          ((sort_networks s).networks.get ⟨n, hn⟩).client_count.toNat).contains
            (c : Int) = true := by
  have hnets : (sort_networks s).networks = bubbleSort network_should_swap s.networks :=
    rfl
  have hperm := bubbleSort_perm network_should_swap s.networks
  refine ⟨?_, ?_, ?_, ?_⟩
  · have hsorted := bubbleSort_sorted network_should_swap
      (fun x => 0 ≤ x.client_count) network_should_swap_asymm
      (fun a b c pa pb pc hab hbc =>
        network_should_swap_negtrans a b c pa pb pc hab hbc)
      s.networks (fun x hx => (hP x hx).1)
    rw [hnets]
    refine List.Pairwise.imp_of_mem ?_ hsorted
    intro a b ha hb hab
    exact netOrdered_of_swap_false a b
      (hP a (hperm.subset ha)).1 (hP b (hperm.subset hb)).1 hab
  · rw [hnets, bubbleSort_map network_should_swap Prod.snd s.networks.enum,
      List.enum_map_snd]
  · have hbase : s.networks.enum.Pairwise
        (fun x y => (network_should_swap x.2 y.2 = false ∧
          network_should_swap y.2 x.2 = false) → x.1 < y.1) := by
      refine List.Pairwise.imp ?_ (pairwise_fst_lt_enum s.networks)
      intro a b h _
      exact h
    exact @bubbleSort_pairwise (Nat × Network)
      (fun x y => network_should_swap x.2 y.2)
      (fun x y => (network_should_swap x.2 y.2 = false ∧
        network_should_swap y.2 x.2 = false) → x.1 < y.1)
      (fun x y hxy htie => absurd hxy (by simp [htie.2]))
      s.networks.enum hbase
  · intro c hc
    have hclen : (sort_networks s).clients.length = s.clients.length := by
      show (s.clients.enum.map _).length = _
      rw [List.length_map, List.enum_length]
    have hc0 := hc
    rw [hclen] at hc0
    obtain ⟨net, hnetmem, hcont⟩ := hlink c (List.mem_range.mpr hc0)
    have hnetmem2 : net ∈ bubbleSort network_should_swap s.networks :=
      hperm.symm.subset hnetmem
    obtain ⟨n, hn, heq⟩ := List.mem_iff_getElem.mp hnetmem2
    have hg : (((bubbleSort network_should_swap s.networks).getD n
        default).client_indices.take
        ((bubbleSort network_should_swap s.networks).getD n
          default).client_count.toNat).contains (c : Int) = true := by
      have hgetD : (bubbleSort network_should_swap s.networks).getD n default = net := by
        simp [List.getD, List.getElem?_eq_getElem hn, heq]
      rw [hgetD]
      exact hcont
    have hex : ∃ nn ∈ List.range (bubbleSort network_should_swap s.networks).length,
        (fun nn => (((bubbleSort network_should_swap s.networks).getD nn
          default).client_indices.take
          ((bubbleSort network_should_swap s.networks).getD nn
            default).client_count.toNat).contains (c : Int)) nn = true :=
      ⟨n, List.mem_range.mpr hn, hg⟩
    obtain ⟨m, hmmem, hgm, hfold⟩ :=
      foldl_pick_contains _ (List.range (bubbleSort network_should_swap s.networks).length)
        ((s.clients.get ⟨c, hc0⟩).ap_index) hex
    have hm : m < (bubbleSort network_should_swap s.networks).length :=
      List.mem_range.mp hmmem
    have hcl : (sort_networks s).clients.get ⟨c, hc⟩ =
        { s.clients.get ⟨c, hc0⟩ with
          ap_index := relinkAp (bubbleSort network_should_swap s.networks) c
            ((s.clients.get ⟨c, hc0⟩).ap_index) } := by
      show (s.clients.enum.map _).get _ = _
      simp [List.get_eq_getElem, List.getElem_map, List.getElem_enum]
    refine ⟨m, hm, ?_, ?_⟩
    · rw [hcl]
      show relinkAp (bubbleSort network_should_swap s.networks) c
        ((s.clients.get ⟨c, hc0⟩).ap_index) = (m : Int)
      unfold relinkAp
      exact hfold
    · have hgetm : (sort_networks s).networks.get ⟨m, hm⟩ =
          (bubbleSort network_should_swap s.networks).getD m default := by
      { show (bubbleSort network_should_swap s.networks).get ⟨m, hm⟩ = _
        simp [List.get_eq_getElem, List.getD, List.getElem?_eq_getElem hm] }
      rw [hgetm]
      exact hgm

/-- Witness for C1's amended statement at the concrete two-network state. -/
theorem c1_sort_order_and_relink_witness :
    ((sort_networks c1WitState).networks).Pairwise netOrdered ∧
    (sort_networks c1WitState).networks =
      (bubbleSort (fun x y => network_should_swap x.2 y.2)
        c1WitState.networks.enum).map Prod.snd ∧
    (bubbleSort (fun x y => network_should_swap x.2 y.2)
      c1WitState.networks.enum).Pairwise
      (fun x y => (network_should_swap x.2 y.2 = false ∧
        network_should_swap y.2 x.2 = false) → x.1 < y.1) ∧
    ∀ c, ∀ hc : c < (sort_networks c1WitState).clients.length,
      ∃ n, ∃ hn : n < (sort_networks c1WitState).networks.length,
        ((sort_networks c1WitState).clients.get ⟨c, hc⟩).ap_index = (n : Int) ∧
        (((sort_networks c1WitState).networks.get ⟨n, hn⟩).client_indices.take
          ((sort_networks c1WitState).networks.get
            ⟨n, hn⟩).client_count.toNat).contains (c : Int) = true :=
  c1_sort_order_and_relink c1WitState (by decide) (by decide)

end Gattrose
